import Mathlib

/-!
Shallow embedding of the JobHunt application-lifecycle core: the Application
document model with its save middleware (models/Application.js), the Job and
User documents (models/Job.js, models/User.js), and the route handlers that
create and mutate applications (routes/jobs.js POST /:id/apply,
routes/applications.js PUT /:id/withdraw, GET /:id and PUT /bulk-update,
routes/recruiter.js PUT /applications/:id, routes/admin.js
PATCH /applications/:id/status), together with the socket.io events they emit.

Ids are strings (Mongo ObjectId hex strings), instants are naturals, and each
route is a pure function from a database value to a database value plus a
typed result, mirroring the JavaScript control flow branch for branch.
-/

/-- Application status enum of models/Application.js
(`enum: ['pending', 'accepted', 'rejected', 'withdrawn']`, default pending). -/
inductive AppStatus where
  | pending
  | accepted
  | rejected
  | withdrawn
deriving DecidableEq, Repr

/-- Resume subdocument of models/User.js (`resume: { public_id, url, viewUrl }`);
each key may be absent. -/
structure Resume where
  public_id : Option String
  url : Option String
deriving DecidableEq, Repr

/-- User role enum of models/User.js (`enum: ['student', 'recruiter']`). -/
inductive Role where
  | student
  | recruiter
deriving DecidableEq, Repr

/-- User document of models/User.js, restricted to the fields the
application-lifecycle routes read. -/
structure UserDoc where
  id : String
  name : String
  role : Role
  resume : Option Resume
deriving DecidableEq, Repr

/-- Job document of models/Job.js, restricted to the fields the
application-lifecycle routes read and write. `company` is the owning
recruiter id. -/
structure Job where
  id : String
  company : String
  isActive : Bool
  applicationDeadline : Nat
  totalApplications : Nat
  acceptedApplications : Nat
  rejectedApplications : Nat
deriving DecidableEq, Repr

/-- Application document of models/Application.js, restricted to the fields
the lifecycle routes read and write. -/
structure Application where
  id : String
  job : String
  student : String
  recruiter : String
  status : AppStatus
  coverLetter : String
  resume : Option Resume
  recruiterNotes : Option String
  interviewDate : Option Nat
  interviewLocation : Option String
  interviewType : Option String
  appliedAt : Nat
  reviewedAt : Option Nat
deriving DecidableEq, Repr

/-- The document store: the three collections the lifecycle core touches. -/
structure DB where
  users : List UserDoc
  jobs : List Job
  apps : List Application
deriving DecidableEq, Repr

/-- Model.findById on the jobs collection. -/
def findJob : List Job → String → Option Job
  | [], _ => none
  | j :: rest, i => if j.id = i then some j else findJob rest i

/-- Model.findById on the applications collection. -/
def findApp : List Application → String → Option Application
  | [], _ => none
  | a :: rest, i => if a.id = i then some a else findApp rest i

/-- Model.findById on the users collection (what populate resolves a ref to). -/
def findUser : List UserDoc → String → Option UserDoc
  | [], _ => none
  | u :: rest, i => if u.id = i then some u else findUser rest i

/-- Application.findOne({ job, student }): does an application for this
(job, student) pair exist (routes/jobs.js apply duplicate check and the
models/Application.js pre-save hook use this same query). -/
def hasApplicationFor : List Application → String → String → Bool
  | [], _, _ => false
  | a :: rest, j, s =>
    if a.job = j ∧ a.student = s then true else hasApplicationFor rest j s

/-- One group of the post-save aggregate of models/Application.js lines 93-101:
the number of applications of job `jobId` whose status is `s`. -/
def countJobStatus : List Application → String → AppStatus → Nat
  | [], _, _ => 0
  | a :: rest, j, s =>
    (if a.job = j ∧ a.status = s then 1 else 0) + countJobStatus rest j s

/-- Job.findByIdAndUpdate of models/Application.js lines 108-112: overwrite the
three counter fields of job `jobId`, leaving every other field alone. -/
def setJobCounters (jobs : List Job) (jobId : String) (t acc rej : Nat) : List Job :=
  jobs.map fun j =>
    if j.id = jobId then
      { j with totalApplications := t, acceptedApplications := acc,
               rejectedApplications := rej }
    else j

/-- The applicationSchema.post('save') hook of models/Application.js lines
88-114: if the owning job exists, aggregate the current statuses of that job's
applications and overwrite its counters (total = pending + accepted + rejected,
withdrawn excluded). This hook runs only on Document#save / Model.create; it is
NOT triggered by findByIdAndUpdate or updateMany. -/
def recomputeJobCounters (db : DB) (jobId : String) : DB :=
  match findJob db.jobs jobId with
  | none => db
  | some _ =>
    let p := countJobStatus db.apps jobId .pending
    let a := countJobStatus db.apps jobId .accepted
    let r := countJobStatus db.apps jobId .rejected
    { db with jobs := setJobCounters db.jobs jobId (p + a + r) a r }

/-- The failure of Application.create on a duplicate (job, student) pair:
both the pre('save') hook of models/Application.js lines 73-85 and the unique
index `applicationSchema.index({ job: 1, student: 1 }, { unique: true })`
reject the insert at the data layer. -/
inductive CreateError where
  | DuplicateApplication
deriving DecidableEq, Repr

/-- Application.create for a new document: the data-layer duplicate guard
(pre-save findOne on the (job, student) pair, backed by the unique index on
(job, student)), then the insert, then the post('save') counter recompute. -/
def applicationCreate (db : DB) (a : Application) :
    DB × Except CreateError Application :=
  if hasApplicationFor db.apps a.job a.student then
    (db, .error .DuplicateApplication)
  else
    let db1 : DB := { db with apps := db.apps ++ [a] }
    (recomputeJobCounters db1 a.job, .ok a)

/-- Document#save for an already-stored application (the withdraw route):
replace the stored document, then run the post('save') counter recompute
(the pre-save duplicate check only fires for new documents). -/
def applicationSaveExisting (db : DB) (a : Application) : DB :=
  let db1 : DB := { db with apps := db.apps.map fun b => if b.id = a.id then a else b }
  recomputeJobCounters db1 a.job

/-- Socket.io events emitted by the lifecycle routes. Each constructor carries
exactly the payload keys the corresponding emit site writes:
`newApplication` (routes/jobs.js apply), `applicationUpdatedFull`
(routes/recruiter.js PUT /applications/:id: status, recruiterNotes,
interviewDate, interviewLocation, interviewType), `applicationUpdatedBulk`
(routes/applications.js PUT /bulk-update: status, recruiterNotes only),
`applicationUpdatedAdmin` (routes/admin.js PATCH /applications/:id/status:
status only), `applicationWithdrawn` (routes/applications.js withdraw). -/
inductive SocketEvent where
  | newApplication (channel : String) (applicationId : String)
  | applicationUpdatedFull (channel : String) (applicationId : String)
      (status : AppStatus) (recruiterNotes : Option String)
      (interviewDate : Option Nat) (interviewLocation : Option String)
      (interviewType : Option String)
  | applicationUpdatedBulk (channel : String) (applicationId : String)
      (status : AppStatus) (recruiterNotes : Option String)
  | applicationUpdatedAdmin (channel : String) (applicationId : String)
      (status : AppStatus)
  | applicationWithdrawn (channel : String) (applicationId : String)
      (studentName : String)
deriving DecidableEq, Repr

/-- The room an event is addressed to (the argument of `io.to(...)`). -/
def SocketEvent.channel : SocketEvent → String
  | .newApplication c _ => c
  | .applicationUpdatedFull c _ _ _ _ _ _ => c
  | .applicationUpdatedBulk c _ _ _ => c
  | .applicationUpdatedAdmin c _ _ => c
  | .applicationWithdrawn c _ _ => c

/-- The socket.io event name string of each emit site. -/
def SocketEvent.eventName : SocketEvent → String
  | .newApplication _ _ => "new-application"
  | .applicationUpdatedFull _ _ _ _ _ _ _ => "application-updated"
  | .applicationUpdatedBulk _ _ _ _ => "application-updated"
  | .applicationUpdatedAdmin _ _ _ => "application-updated"
  | .applicationWithdrawn _ _ _ => "application-withdrawn"

/-- Whether the emitted payload object carries the interviewDate,
interviewLocation and interviewType keys (only the recruiter single-update
emit site writes them). -/
def SocketEvent.hasInterviewFields : SocketEvent → Bool
  | .applicationUpdatedFull _ _ _ _ _ _ _ => true
  | _ => false

/-- JavaScript truthiness of the resume check in routes/jobs.js line 723:
`!req.user.resume || !req.user.resume.url` is true when the resume
subdocument is absent, its url key is absent, or its url is the empty
string (falsy). -/
def resumeMissing : Option Resume → Bool
  | none => true
  | some r =>
    match r.url with
    | none => true
    | some u => u.isEmpty

/-- The request user resolved by the protect middleware for a student caller
(the fields the apply and withdraw routes read from req.user). -/
structure StudentCtx where
  id : String
  name : String
  resume : Option Resume
deriving DecidableEq, Repr

/-- Typed failures of POST /api/jobs/:id/apply (routes/jobs.js lines 693-759).
ServerError is the catch-all 500 branch. -/
inductive ApplyError where
  | NotFound
  | Inactive
  | DeadlinePassed
  | DuplicateApplication
  | MissingResume
  | ServerError
deriving DecidableEq, Repr

/-- POST /api/jobs/:id/apply (routes/jobs.js lines 693-759). Checks, in source
order: job exists (404), job.isActive (400), `new Date() > applicationDeadline`
(400), existing application for the (job, student) pair (400), resume present
(400); then Application.create with status defaulting to pending, resume
copied from req.user.resume, recruiter := job.company, and emits
new-application to the `recruiter-` room of the job owner. On any failure the
store is returned unchanged and no event is produced. -/
def applyToJob (db : DB) (now : Nat) (jobId : String) (user : StudentCtx)
    (coverLetter : Option String) (newId : String) :
    DB × Except ApplyError SocketEvent :=
  match findJob db.jobs jobId with
  | none => (db, .error .NotFound)
  | some job =>
    if job.isActive = false then (db, .error .Inactive)
    else if job.applicationDeadline < now then (db, .error .DeadlinePassed)
    else if hasApplicationFor db.apps jobId user.id then
      (db, .error .DuplicateApplication)
    else if resumeMissing user.resume then (db, .error .MissingResume)
    else
      let a : Application :=
        { id := newId, job := jobId, student := user.id, recruiter := job.company,
          status := .pending, coverLetter := coverLetter.getD "",
          resume := user.resume, recruiterNotes := none, interviewDate := none,
          interviewLocation := none, interviewType := none, appliedAt := now,
          reviewedAt := none }
      match applicationCreate db a with
      | (db1, .ok _) =>
        (db1, .ok (.newApplication ("recruiter-" ++ job.company) newId))
      | (_, .error _) => (db, .error .ServerError)

/-- Typed failures of PUT /api/applications/:id/withdraw
(routes/applications.js lines 458-495). -/
inductive WithdrawError where
  | NotFound
  | Forbidden
  | InvalidTransition
deriving DecidableEq, Repr

/-- PUT /api/applications/:id/withdraw (routes/applications.js lines 458-495).
Checks: application exists (404), the caller is its student (403), current
status is pending (400 otherwise); then sets status to withdrawn via
Document#save (which runs the post-save counter recompute) and emits
application-withdrawn to the `recruiter-` room. -/
def withdrawApplication (db : DB) (studentId studentName : String)
    (appId : String) : DB × Except WithdrawError SocketEvent :=
  match findApp db.apps appId with
  | none => (db, .error .NotFound)
  | some a =>
    if a.student ≠ studentId then (db, .error .Forbidden)
    else if a.status ≠ .pending then (db, .error .InvalidTransition)
    else
      let a1 : Application := { a with status := .withdrawn }
      (applicationSaveExisting db a1,
       .ok (.applicationWithdrawn ("recruiter-" ++ a.recruiter) a.id studentName))

/-- Typed failures of PUT /api/recruiter/applications/:id
(routes/recruiter.js lines 389-441). ServerError models the uncaught null
dereference when populate finds no job document. -/
inductive UpdateError where
  | NotFound
  | ServerError
  | Forbidden
deriving DecidableEq, Repr

/-- The updateFields object of routes/recruiter.js lines 404-412: status is
always written; notes and interview fields only when present in the body;
reviewedAt stamped when the new status is not pending. -/
def applyUpdateFields (a : Application) (now : Nat) (status : AppStatus)
    (notes : Option String) (idate : Option Nat) (iloc : Option String)
    (itype : Option String) : Application :=
  { a with
    status := status,
    recruiterNotes := if notes.isSome then notes else a.recruiterNotes,
    interviewDate := if idate.isSome then idate else a.interviewDate,
    interviewLocation := if iloc.isSome then iloc else a.interviewLocation,
    interviewType := if itype.isSome then itype else a.interviewType,
    reviewedAt := if status ≠ .pending then some now else a.reviewedAt }

/-- PUT /api/recruiter/applications/:id (routes/recruiter.js lines 389-441).
Checks: application exists (404), the populated job's company is the caller
(403); then Application.findByIdAndUpdate with updateFields — which does NOT
run the save middleware, so the job counters are not recomputed — and emits
application-updated to the `student-` room with status, notes and the three
interview fields of the updated document. There is no check of the current
status. -/
def updateApplication (db : DB) (now : Nat) (recruiterId : String)
    (appId : String) (status : AppStatus) (notes : Option String)
    (idate : Option Nat) (iloc : Option String) (itype : Option String) :
    DB × Except UpdateError SocketEvent :=
  match findApp db.apps appId with
  | none => (db, .error .NotFound)
  | some a =>
    match findJob db.jobs a.job with
    | none => (db, .error .ServerError)
    | some job =>
      if job.company ≠ recruiterId then (db, .error .Forbidden)
      else
        let a1 := applyUpdateFields a now status notes idate iloc itype
        let db1 : DB :=
          { db with apps := db.apps.map fun b => if b.id = appId then a1 else b }
        (db1, .ok (.applicationUpdatedFull ("student-" ++ a.student) a.id
                    a1.status a1.recruiterNotes a1.interviewDate
                    a1.interviewLocation a1.interviewType))

/-- Typed failures of PUT /api/applications/bulk-update
(routes/applications.js lines 502-557). NotAllOwned is the 400 response
"Some applications not found or not authorized". -/
inductive BulkError where
  | MissingIds
  | NotAllOwned
deriving DecidableEq, Repr

/-- Application.find({ _id: { $in: applicationIds }, recruiter }) of
routes/applications.js lines 515-518: the stored applications whose id occurs
in the request list and whose recruiter is the caller. -/
def ownedMatches : List Application → List String → String → List Application
  | [], _, _ => []
  | a :: rest, ids, r =>
    if a.id ∈ ids ∧ a.recruiter = r then a :: ownedMatches rest ids r
    else ownedMatches rest ids r

/-- The updateMany document mutation of routes/applications.js lines 524-535:
every stored application whose id occurs in the request list gets the new
status, the notes when provided, and a reviewedAt stamp when the status is
not pending. -/
def bulkApplyFields (apps : List Application) (ids : List String) (now : Nat)
    (status : AppStatus) (notes : Option String) : List Application :=
  apps.map fun a =>
    if a.id ∈ ids then
      { a with
        status := status,
        recruiterNotes := if notes.isSome then notes else a.recruiterNotes,
        reviewedAt := if status ≠ .pending then some now else a.reviewedAt }
    else a

/-- PUT /api/applications/bulk-update (routes/applications.js lines 502-557).
Rejects an empty id list (400); fetches the applications matched by
{ _id ∈ applicationIds, recruiter = caller } and rejects in full when the
number of matched documents differs from the length of the id list (400);
otherwise runs updateMany — which does NOT run the save middleware, so job
counters are not recomputed — and emits one application-updated per matched
document to its `student-` room with status and notes only. Returns the
matched count. There is no check of the current statuses. -/
def bulkUpdateApplications (db : DB) (now : Nat) (recruiterId : String)
    (applicationIds : List String) (status : AppStatus)
    (notes : Option String) : DB × Except BulkError (List SocketEvent × Nat) :=
  if applicationIds.isEmpty then (db, .error .MissingIds)
  else
    let matched := ownedMatches db.apps applicationIds recruiterId
    if matched.length ≠ applicationIds.length then (db, .error .NotAllOwned)
    else
      let db1 : DB :=
        { db with apps := bulkApplyFields db.apps applicationIds now status notes }
      (db1,
       .ok (matched.map fun a =>
              SocketEvent.applicationUpdatedBulk ("student-" ++ a.student)
                a.id status notes,
            matched.length))

/-- Typed failure of PATCH /api/admin/applications/:id/status
(routes/admin.js lines 186-207). -/
inductive AdminError where
  | NotFound
deriving DecidableEq, Repr

/-- PATCH /api/admin/applications/:id/status (routes/admin.js lines 186-207).
Application.findByIdAndUpdate with the bare status — no state-machine check
and no save middleware, so no counter recompute — then emits TWO
application-updated events, one to the room named by the raw student id
(`String(application.student)`, no `student-` prefix) and one to the room
named by the raw recruiter id, each carrying only applicationId and status. -/
def adminUpdateApplicationStatus (db : DB) (appId : String)
    (status : AppStatus) : DB × Except AdminError (List SocketEvent) :=
  match findApp db.apps appId with
  | none => (db, .error .NotFound)
  | some a =>
    let a1 : Application := { a with status := status }
    let db1 : DB :=
      { db with apps := db.apps.map fun b => if b.id = appId then a1 else b }
    (db1, .ok [SocketEvent.applicationUpdatedAdmin a1.student a.id status,
               SocketEvent.applicationUpdatedAdmin a1.recruiter a.id status])

/-- Typed failures of GET /api/applications/:id
(routes/applications.js lines 425-453). ServerError models the uncaught null
dereference when populate finds no referenced user. -/
inductive GetError where
  | NotFound
  | Forbidden
  | ServerError
deriving DecidableEq, Repr

/-- Mongoose Document#toString applied to a populated reference: populate
replaces the stored ObjectId with the referenced user document, and a mongoose
Document stringifies (lib/document.js, toString delegating to inspect) to an
object-literal rendering of the document, never to the bare 24-hex id. The
exact rendering is abbreviated here; the routes only compare it for equality
with a caller id. -/
def docToString (u : UserDoc) : String :=
  "\x7b _id: " ++ u.id ++ ", name: " ++ u.name ++ " \x7d"

/-- GET /api/applications/:id (routes/applications.js lines 425-453). The
query populates the student and recruiter references, so the ownership checks
`application.student.toString() !== req.user.id` and
`application.recruiter.toString() !== req.user.id` compare the inspect
rendering of a populated user document with the raw caller id. Absent
application is 404; a failed comparison is 403. -/
def getApplicationById (db : DB) (callerId : String) (callerRole : Role)
    (appId : String) : Except GetError Application :=
  match findApp db.apps appId with
  | none => .error .NotFound
  | some a =>
    match callerRole with
    | .student =>
      match findUser db.users a.student with
      | none => .error .ServerError
      | some u =>
        if docToString u ≠ callerId then .error .Forbidden else .ok a
    | .recruiter =>
      match findUser db.users a.recruiter with
      | none => .error .ServerError
      | some u =>
        if docToString u ≠ callerId then .error .Forbidden else .ok a

/-! ### Basic lemmas about the store helpers -/

theorem findApp_eq_some_id {l : List Application} {i : String} {a : Application}
    (h : findApp l i = some a) : a.id = i := by
  induction l with
  | nil => simp [findApp] at h
  | cons b rest ih =>
    by_cases hb : b.id = i
    · simp [findApp, hb] at h
      rw [← h]; exact hb
    · simp [findApp, hb] at h
      exact ih h

theorem findJob_eq_some_id {l : List Job} {i : String} {j : Job}
    (h : findJob l i = some j) : j.id = i := by
  induction l with
  | nil => simp [findJob] at h
  | cons b rest ih =>
    by_cases hb : b.id = i
    · simp [findJob, hb] at h
      rw [← h]; exact hb
    · simp [findJob, hb] at h
      exact ih h

theorem recomputeJobCounters_apps (db : DB) (jobId : String) :
    (recomputeJobCounters db jobId).apps = db.apps := by
  unfold recomputeJobCounters
  cases h : findJob db.jobs jobId <;> simp

theorem recomputeJobCounters_users (db : DB) (jobId : String) :
    (recomputeJobCounters db jobId).users = db.users := by
  unfold recomputeJobCounters
  cases h : findJob db.jobs jobId <;> simp

theorem findApp_map_replace (l : List Application) (i : String)
    (a1 : Application) (h : a1.id = i) :
    findApp (l.map fun b => if b.id = i then a1 else b) i =
      (findApp l i).map fun _ => a1 := by
  induction l with
  | nil => rfl
  | cons b rest ih =>
    by_cases hb : b.id = i
    · simp [findApp, List.map, hb, h]
    · simp [findApp, List.map, hb, ih]

theorem findApp_save_replace (l : List Application) (a1 : Application)
    (i : String) (h : a1.id = i) :
    findApp (l.map fun b => if b.id = a1.id then a1 else b) i =
      (findApp l i).map fun _ => a1 := by
  induction l with
  | nil => rfl
  | cons b rest ih =>
    by_cases hb : b.id = i
    · have hb1 : b.id = a1.id := by rw [h, hb]
      simp [findApp, List.map, hb, hb1, h]
    · have hb1 : ¬b.id = a1.id := fun e => hb (e.trans h)
      simp [findApp, List.map, hb, hb1, ih]

/-! ### Concrete fixtures used by witnesses and counterexamples -/

/-- A resume reference with a non-empty url (passes the apply resume check). -/
def resume1 : Resume := { public_id := some "res1", url := some "res-url-1" }

/-- Student request context with a resume on file. -/
def stu1 : StudentCtx := { id := "s1", name := "Alice", resume := some resume1 }

/-- The student user document behind `stu1`. -/
def user_s1 : UserDoc := { id := "s1", name := "Alice", role := .student, resume := some resume1 }

/-- The recruiter user document owning `job1`. -/
def user_r1 : UserDoc := { id := "r1", name := "Bob", role := .recruiter, resume := none }

/-- An active job owned by recruiter r1 with deadline 100 and zero counters. -/
def job1 : Job :=
  { id := "j1", company := "r1", isActive := true, applicationDeadline := 100,
    totalApplications := 0, acceptedApplications := 0, rejectedApplications := 0 }

/-- Store with one job and no applications. -/
def db0 : DB := { users := [user_s1, user_r1], jobs := [job1], apps := [] }

/-- A pending application of s1 to j1. -/
def app_pend : Application :=
  { id := "a1", job := "j1", student := "s1", recruiter := "r1",
    status := .pending, coverLetter := "", resume := some resume1,
    recruiterNotes := none, interviewDate := none, interviewLocation := none,
    interviewType := none, appliedAt := 1, reviewedAt := none }

/-- The same application already accepted. -/
def app_acc : Application := { app_pend with status := .accepted }

/-- Store holding the pending application. -/
def dbPend : DB := { users := [user_s1, user_r1], jobs := [job1], apps := [app_pend] }

/-- Store holding the accepted application. -/
def dbAcc : DB := { users := [user_s1, user_r1], jobs := [job1], apps := [app_acc] }

/-- The store after s1 applies to j1 at time 10. -/
def dbAfterApply : DB := (applyToJob db0 10 "j1" stu1 (some "hello") "a1").1

/-- The store after the recruiter then accepts that application via
PUT /api/recruiter/applications/:id. -/
def dbAfterUpdate : DB :=
  (updateApplication dbAfterApply 20 "r1" "a1" .accepted none none none none).1

/-! ### C1 -/

/-- C1: after every Application creation or status mutation the job counters
are said to be recomputed. The creation path (Application.create, post-save
hook) does recompute, but the recruiter status mutation goes through
findByIdAndUpdate, which does not run the save middleware: after the recruiter
accepts the only application of j1, the stored application is accepted while
the job still carries acceptedApplications = 0, though one accepted
application of j1 exists. The claimed invariant fails on the code. -/
theorem counters_not_recomputed_on_recruiter_update :
    (findJob dbAfterApply.jobs "j1").map Job.totalApplications = some 1
    ∧ (findApp dbAfterUpdate.apps "a1").map Application.status = some .accepted
    ∧ (findJob dbAfterUpdate.jobs "j1").map Job.acceptedApplications = some 0
    ∧ countJobStatus dbAfterUpdate.apps "j1" .accepted = 1 := by
  refine ⟨?_, ?_, ?_, ?_⟩ <;> rfl

/-! ### C4 -/

/-- C4 counterexample: the claim says any status mutation attempt on an
accepted application fails with InvalidTransition. But the recruiter update
route has no state-machine check: on the accepted application a1 it succeeds,
overwrites the status to rejected, and emits the update event. -/
theorem updateApplication_ignores_terminal_status :
    (updateApplication dbAcc 20 "r1" "a1" .rejected none none none none).2 =
      .ok (.applicationUpdatedFull "student-s1" "a1" .rejected none none none none)
    ∧ (findApp (updateApplication dbAcc 20 "r1" "a1" .rejected none none none
          none).1.apps "a1").map Application.status = some .rejected := by
  refine ⟨?_, ?_⟩ <;> rfl

/-! ### C8 -/

/-- C8: the route distinguishes absence (404) from failed ownership (403),
but because the query populates the student reference, the ownership check
compares the inspect rendering of the populated user document against the raw
caller id, which never match: even the owning student s1 of application a1 is
answered Forbidden instead of receiving the application. -/
theorem getApplicationById_owner_gets_forbidden :
    getApplicationById dbAcc "s1" .student "a1" = .error .Forbidden
    ∧ (findApp dbAcc.apps "a1").map Application.student = some "s1"
    ∧ (findUser dbAcc.users "s1").isSome = true
    ∧ getApplicationById dbAcc "s1" .student "zz" = .error .NotFound := by
  refine ⟨?_, ?_, ?_, ?_⟩ <;> rfl

/-! ### C9 -/

/-- C9 counterexample: a successful admin status mutation of the pending
application a1 publishes TWO application-updated events, none of them
addressed to the channel `student-s1` (the rooms are the raw ids, without the
role prefix), and their payloads carry no recruiter notes or interview
fields — contradicting the claim that every such mutation publishes exactly
one event to `student-{studentId}` with notes and interview fields. -/
theorem admin_status_update_events_counterexample :
    (adminUpdateApplicationStatus dbPend "a1" .accepted).2 =
      .ok [SocketEvent.applicationUpdatedAdmin "s1" "a1" .accepted,
           SocketEvent.applicationUpdatedAdmin "r1" "a1" .accepted]
    ∧ (findApp (adminUpdateApplicationStatus dbPend "a1" .accepted).1.apps
        "a1").map Application.status = some .accepted
    ∧ (SocketEvent.applicationUpdatedAdmin "s1" "a1" .accepted).channel ≠ "student-s1"
    ∧ (SocketEvent.applicationUpdatedAdmin "r1" "a1" .accepted).channel ≠ "student-s1"
    ∧ (SocketEvent.applicationUpdatedAdmin "s1" "a1"
        .accepted).hasInterviewFields = false := by
  refine ⟨?_, ?_, ?_, ?_, ?_⟩
  · rfl
  · rfl
  · decide
  · decide
  · rfl

/-! ### C2 -/

/-- C2: for an existing application owned by the calling student, withdrawal
succeeds exactly when the current status is pending; from any other status the
route answers InvalidTransition and returns the store unchanged; on success
the stored application becomes withdrawn. -/
theorem withdrawApplication_succeeds_iff_pending
    (db : DB) (sid sname aid : String) (a : Application)
    (hfind : findApp db.apps aid = some a) (hown : a.student = sid) :
    ((∃ ev, (withdrawApplication db sid sname aid).2 = .ok ev) ↔
        a.status = .pending)
    ∧ (a.status ≠ .pending →
        withdrawApplication db sid sname aid = (db, .error .InvalidTransition))
    ∧ (a.status = .pending →
        findApp (withdrawApplication db sid sname aid).1.apps aid =
          some { a with status := .withdrawn }) := by
  have hid : a.id = aid := findApp_eq_some_id hfind
  have hres : withdrawApplication db sid sname aid =
      if a.status ≠ AppStatus.pending then (db, .error .InvalidTransition)
      else (applicationSaveExisting db { a with status := .withdrawn },
            .ok (.applicationWithdrawn ("recruiter-" ++ a.recruiter) a.id sname)) := by
    unfold withdrawApplication
    rw [hfind]
    show (if a.student ≠ sid then (db, .error .Forbidden)
          else if a.status ≠ AppStatus.pending then
            ((db, .error .InvalidTransition) : DB × Except WithdrawError SocketEvent)
          else (applicationSaveExisting db { a with status := .withdrawn },
                .ok (.applicationWithdrawn ("recruiter-" ++ a.recruiter) a.id sname))) = _
    rw [if_neg (by simp [hown])]
  by_cases hp : a.status = AppStatus.pending
  · rw [hres, if_neg (by simp [hp])]
    refine ⟨⟨fun _ => hp, fun _ => ⟨_, rfl⟩⟩, fun h => absurd hp h, fun _ => ?_⟩
    have h1 : (applicationSaveExisting db { a with status := AppStatus.withdrawn }).apps =
        db.apps.map fun b =>
          if b.id = ({ a with status := AppStatus.withdrawn } : Application).id then
            { a with status := AppStatus.withdrawn }
          else b := by
      unfold applicationSaveExisting
      rw [recomputeJobCounters_apps]
    rw [h1,
      findApp_save_replace db.apps { a with status := AppStatus.withdrawn } aid hid,
      hfind]
    rfl
  · rw [hres, if_pos (by simp [hp])]
    refine ⟨⟨?_, fun h => absurd h hp⟩, fun _ => rfl, fun h => absurd h hp⟩
    rintro ⟨ev, hev⟩
    exact Except.noConfusion hev

/-! ### C3 -/

/-- The Application document built by the apply route (routes/jobs.js lines
728-734): status defaults to pending, coverLetter defaults to the empty
string, resume is copied from req.user, recruiter is the job owner. -/
def mkApplication (now : Nat) (jid : String) (user : StudentCtx)
    (cl : Option String) (nid : String) (companyId : String) : Application :=
  { id := nid, job := jid, student := user.id, recruiter := companyId,
    status := .pending, coverLetter := cl.getD "", resume := user.resume,
    recruiterNotes := none, interviewDate := none, interviewLocation := none,
    interviewType := none, appliedAt := now, reviewedAt := none }

theorem applyToJob_cascade (db : DB) (now : Nat) (jid : String)
    (user : StudentCtx) (cl : Option String) (nid : String) (j : Job)
    (hj : findJob db.jobs jid = some j) :
    applyToJob db now jid user cl nid =
      if j.isActive = false then (db, .error .Inactive)
      else if j.applicationDeadline < now then (db, .error .DeadlinePassed)
      else if hasApplicationFor db.apps jid user.id then
        (db, .error .DuplicateApplication)
      else if resumeMissing user.resume then (db, .error .MissingResume)
      else
        match applicationCreate db (mkApplication now jid user cl nid j.company) with
        | (db1, .ok _) =>
          (db1, .ok (.newApplication ("recruiter-" ++ j.company) nid))
        | (_, .error _) => (db, .error .ServerError) := by
  unfold applyToJob
  rw [hj]
  rfl

theorem applicationCreate_fresh (db : DB) (now : Nat) (jid : String)
    (user : StudentCtx) (cl : Option String) (nid : String) (c : String)
    (hdup : hasApplicationFor db.apps jid user.id = false) :
    applicationCreate db (mkApplication now jid user cl nid c) =
      (recomputeJobCounters
        { db with apps := db.apps ++ [mkApplication now jid user cl nid c] } jid,
       .ok (mkApplication now jid user cl nid c)) := by
  unfold applicationCreate
  rw [if_neg (by simp [mkApplication, hdup])]
  rfl

/-- C3: the apply route checks its preconditions in source order with the
first failure determining the error; on success the created application has
status pending, the resume snapshot copied from the student context and the
recruiter set to the job owner, the counters are recomputed, and one
new-application event goes to the recruiter room; on any failure the store is
unchanged (and the typed failure carries no event). -/
theorem applyToJob_check_order_and_success (db : DB) (now : Nat) (jid : String)
    (user : StudentCtx) (cl : Option String) (nid : String) :
    (findJob db.jobs jid = none →
      applyToJob db now jid user cl nid = (db, .error .NotFound))
    ∧ (∀ j, findJob db.jobs jid = some j → j.isActive = false →
      applyToJob db now jid user cl nid = (db, .error .Inactive))
    ∧ (∀ j, findJob db.jobs jid = some j → j.isActive = true →
      j.applicationDeadline < now →
      applyToJob db now jid user cl nid = (db, .error .DeadlinePassed))
    ∧ (∀ j, findJob db.jobs jid = some j → j.isActive = true →
      ¬j.applicationDeadline < now →
      hasApplicationFor db.apps jid user.id = true →
      applyToJob db now jid user cl nid = (db, .error .DuplicateApplication))
    ∧ (∀ j, findJob db.jobs jid = some j → j.isActive = true →
      ¬j.applicationDeadline < now →
      hasApplicationFor db.apps jid user.id = false →
      resumeMissing user.resume = true →
      applyToJob db now jid user cl nid = (db, .error .MissingResume))
    ∧ (∀ j, findJob db.jobs jid = some j → j.isActive = true →
      ¬j.applicationDeadline < now →
      hasApplicationFor db.apps jid user.id = false →
      resumeMissing user.resume = false →
      applyToJob db now jid user cl nid =
        (recomputeJobCounters
          { db with apps := db.apps ++ [mkApplication now jid user cl nid j.company] }
          jid,
         .ok (.newApplication ("recruiter-" ++ j.company) nid)))
    ∧ (∀ e, (applyToJob db now jid user cl nid).2 = .error e →
        (applyToJob db now jid user cl nid).1 = db) := by
  refine ⟨?_, ?_, ?_, ?_, ?_, ?_, ?_⟩
  · intro hj
    unfold applyToJob
    rw [hj]
  · intro j hj hact
    rw [applyToJob_cascade db now jid user cl nid j hj, if_pos hact]
  · intro j hj hact hdl
    rw [applyToJob_cascade db now jid user cl nid j hj,
      if_neg (by simp [hact]), if_pos hdl]
  · intro j hj hact hdl hdup
    rw [applyToJob_cascade db now jid user cl nid j hj,
      if_neg (by simp [hact]), if_neg hdl, if_pos hdup]
  · intro j hj hact hdl hdup hres
    rw [applyToJob_cascade db now jid user cl nid j hj,
      if_neg (by simp [hact]), if_neg hdl, if_neg (by simp [hdup]),
      if_pos hres]
  · intro j hj hact hdl hdup hres
    rw [applyToJob_cascade db now jid user cl nid j hj,
      if_neg (by simp [hact]), if_neg hdl, if_neg (by simp [hdup]),
      if_neg (by simp [hres]),
      applicationCreate_fresh db now jid user cl nid j.company hdup]
  · intro e he
    cases hj : findJob db.jobs jid with
    | none =>
      unfold applyToJob
      rw [hj]
    | some j =>
      rw [applyToJob_cascade db now jid user cl nid j hj] at he ⊢
      by_cases h1 : j.isActive = false
      · rw [if_pos h1]
      · rw [if_neg h1] at he ⊢
        by_cases h2 : j.applicationDeadline < now
        · rw [if_pos h2]
        · rw [if_neg h2] at he ⊢
          by_cases h3 : hasApplicationFor db.apps jid user.id = true
          · rw [if_pos h3]
          · rw [if_neg h3] at he ⊢
            by_cases h4 : resumeMissing user.resume = true
            · rw [if_pos h4]
            · rw [if_neg h4] at he ⊢
              rw [applicationCreate_fresh db now jid user cl nid j.company
                (by simpa using h3)] at he
              exact Except.noConfusion he

/-- C3 witness: on the concrete store db0 every precondition holds at time 10
and the success clause of the theorem yields the concrete result. -/
theorem applyToJob_check_order_and_success_witness :
    applyToJob db0 10 "j1" stu1 (some "hello") "a1" =
      (recomputeJobCounters
        { db0 with apps := db0.apps ++ [mkApplication 10 "j1" stu1 (some "hello") "a1" job1.company] }
        "j1",
       .ok (.newApplication ("recruiter-" ++ job1.company) "a1")) :=
  (applyToJob_check_order_and_success db0 10 "j1" stu1 (some "hello")
    "a1").2.2.2.2.2.1 job1 (by rfl) (by rfl) (by decide) (by rfl) (by rfl)

/-- C2 witness: on the concrete store holding the accepted application a1
owned by s1, the theorem instantiates: withdrawal neither succeeds nor
changes the store and answers InvalidTransition. -/
theorem withdrawApplication_succeeds_iff_pending_witness :
    withdrawApplication dbAcc "s1" "Alice" "a1" =
      (dbAcc, .error .InvalidTransition) :=
  (withdrawApplication_succeeds_iff_pending dbAcc "s1" "Alice" "a1" app_acc
    (by rfl) (by rfl)).2.1 (by decide)

/-! ### C7 -/

/-- C7: with every other precondition satisfied, the apply route fails with
DeadlinePassed exactly when the current time is strictly after the deadline
(`new Date() > job.applicationDeadline`); at exact equality the check passes
and the application is created. -/
theorem applyToJob_deadline_strict_boundary (db : DB) (now : Nat)
    (jid : String) (user : StudentCtx) (cl : Option String) (nid : String)
    (j : Job) (hj : findJob db.jobs jid = some j) (hact : j.isActive = true)
    (hdup : hasApplicationFor db.apps jid user.id = false)
    (hres : resumeMissing user.resume = false) :
    ((applyToJob db now jid user cl nid).2 = .error .DeadlinePassed ↔
      j.applicationDeadline < now)
    ∧ (now = j.applicationDeadline →
      (applyToJob db now jid user cl nid).2 =
        .ok (.newApplication ("recruiter-" ++ j.company) nid)) := by
  rw [applyToJob_cascade db now jid user cl nid j hj, if_neg (by simp [hact])]
  by_cases hdl : j.applicationDeadline < now
  · rw [if_pos hdl]
    exact ⟨⟨fun _ => hdl, fun _ => rfl⟩,
           fun heq => absurd (heq ▸ hdl) (lt_irrefl _)⟩
  · rw [if_neg hdl, if_neg (by simp [hdup]), if_neg (by simp [hres]),
      applicationCreate_fresh db now jid user cl nid j.company hdup]
    exact ⟨⟨fun h => Except.noConfusion h, fun h => absurd h hdl⟩,
           fun _ => rfl⟩

/-- C7 witness: at time 100, exactly the deadline of job1, the deadline check
passes and the application is created. -/
theorem applyToJob_deadline_strict_boundary_witness :
    (applyToJob db0 100 "j1" stu1 none "a1").2 =
      .ok (.newApplication ("recruiter-" ++ job1.company) "a1") :=
  (applyToJob_deadline_strict_boundary db0 100 "j1" stu1 none "a1" job1
    (by rfl) (by rfl) (by rfl) (by rfl)).2 (by rfl)

/-! ### C5 -/

/-- At most one application per (job, student) pair: no two distinct entries
of the collection agree on both the job and the student reference. -/
def PairUnique (apps : List Application) : Prop :=
  apps.Pairwise fun a b => ¬(a.job = b.job ∧ a.student = b.student)

theorem hasApplicationFor_eq_false_iff (l : List Application) (j s : String) :
    hasApplicationFor l j s = false ↔ ∀ a ∈ l, ¬(a.job = j ∧ a.student = s) := by
  induction l with
  | nil => simp [hasApplicationFor]
  | cons a rest ih =>
    by_cases h : a.job = j ∧ a.student = s
    · simp [hasApplicationFor, h]
    · rw [show hasApplicationFor (a :: rest) j s = hasApplicationFor rest j s
        from by simp [hasApplicationFor, h], ih]
      constructor
      · intro hr x hx
        rcases List.mem_cons.mp hx with hxa | hxr
        · subst hxa; exact h
        · exact hr x hxr
      · intro hr x hx
        exact hr x (List.mem_cons_of_mem a hx)

theorem hasApplicationFor_append (l1 l2 : List Application) (j s : String) :
    hasApplicationFor (l1 ++ l2) j s =
      (hasApplicationFor l1 j s || hasApplicationFor l2 j s) := by
  induction l1 with
  | nil => simp [hasApplicationFor]
  | cons a rest ih =>
    by_cases h : a.job = j ∧ a.student = s
    · simp [hasApplicationFor, h]
    · simp [hasApplicationFor, h, ih]

theorem applyToJob_ok_shape (db : DB) (now : Nat) (jid : String)
    (user : StudentCtx) (cl : Option String) (nid : String) (ev : SocketEvent)
    (hok : (applyToJob db now jid user cl nid).2 = .ok ev) :
    ∃ j, findJob db.jobs jid = some j ∧
      hasApplicationFor db.apps jid user.id = false ∧
      applyToJob db now jid user cl nid =
        (recomputeJobCounters
          { db with apps := db.apps ++ [mkApplication now jid user cl nid j.company] }
          jid,
         .ok (.newApplication ("recruiter-" ++ j.company) nid)) := by
  cases hj : findJob db.jobs jid with
  | none =>
    unfold applyToJob at hok
    rw [hj] at hok
    exact Except.noConfusion hok
  | some j =>
    rw [applyToJob_cascade db now jid user cl nid j hj] at hok
    by_cases h1 : j.isActive = false
    · rw [if_pos h1] at hok; exact Except.noConfusion hok
    · rw [if_neg h1] at hok
      by_cases h2 : j.applicationDeadline < now
      · rw [if_pos h2] at hok; exact Except.noConfusion hok
      · rw [if_neg h2] at hok
        by_cases h3 : hasApplicationFor db.apps jid user.id = true
        · rw [if_pos h3] at hok; exact Except.noConfusion hok
        · rw [if_neg h3] at hok
          have h3f : hasApplicationFor db.apps jid user.id = false := by
            simpa using h3
          by_cases h4 : resumeMissing user.resume = true
          · rw [if_pos h4] at hok; exact Except.noConfusion hok
          · rw [if_neg h4] at hok
            refine ⟨j, rfl, h3f, ?_⟩
            rw [applyToJob_cascade db now jid user cl nid j hj, if_neg h1,
              if_neg h2, if_neg h3, if_neg h4,
              applicationCreate_fresh db now jid user cl nid j.company h3f]

/-- C5: the (job, student) uniqueness is enforced at the data layer —
Application.create itself preserves the at-most-one-per-pair invariant and
rejects a duplicate insert with no route check involved — and the apply route
answers DuplicateApplication for a second application to the same pair; a
successful apply leaves the pair occupied, so a replay meets the duplicate
error. -/
theorem application_pair_uniqueness_data_layer (db : DB) :
    (∀ a, PairUnique db.apps → PairUnique ((applicationCreate db a).1).apps)
    ∧ (∀ a, hasApplicationFor db.apps a.job a.student = true →
        applicationCreate db a = (db, .error .DuplicateApplication))
    ∧ (∀ now jid (user : StudentCtx) cl nid j, findJob db.jobs jid = some j →
        j.isActive = true → ¬j.applicationDeadline < now →
        hasApplicationFor db.apps jid user.id = true →
        applyToJob db now jid user cl nid = (db, .error .DuplicateApplication))
    ∧ (∀ now jid (user : StudentCtx) cl nid ev,
        (applyToJob db now jid user cl nid).2 = .ok ev →
        hasApplicationFor (applyToJob db now jid user cl nid).1.apps jid
          user.id = true) := by
  refine ⟨?_, ?_, ?_, ?_⟩
  · intro a hu
    unfold applicationCreate
    by_cases h : hasApplicationFor db.apps a.job a.student = true
    · rw [if_pos h]
      exact hu
    · have hf : hasApplicationFor db.apps a.job a.student = false := by
        simpa using h
      rw [if_neg h]
      show PairUnique (recomputeJobCounters { db with apps := db.apps ++ [a] } a.job).apps
      rw [recomputeJobCounters_apps]
      show PairUnique (db.apps ++ [a])
      unfold PairUnique at hu ⊢
      rw [List.pairwise_append]
      refine ⟨hu, List.pairwise_singleton _ _, ?_⟩
      intro x hx b hb
      have hb1 : b = a := by simpa using hb
      subst hb1
      exact (hasApplicationFor_eq_false_iff db.apps b.job b.student).mp hf x hx
  · intro a h
    unfold applicationCreate
    rw [if_pos h]
  · intro now jid user cl nid j hj hact hdl hdup
    rw [applyToJob_cascade db now jid user cl nid j hj,
      if_neg (by simp [hact]), if_neg hdl, if_pos hdup]
  · intro now jid user cl nid ev hok
    obtain ⟨j, hj, h3f, heq⟩ := applyToJob_ok_shape db now jid user cl nid ev hok
    rw [heq]
    show hasApplicationFor
      (recomputeJobCounters
        { db with apps := db.apps ++ [mkApplication now jid user cl nid j.company] }
        jid).apps jid user.id = true
    rw [recomputeJobCounters_apps]
    show hasApplicationFor
      (db.apps ++ [mkApplication now jid user cl nid j.company]) jid user.id = true
    rw [hasApplicationFor_append]
    simp [hasApplicationFor, mkApplication]

/-- C5 witness: on the store already holding the pending application of s1 to
j1, a second apply attempt by s1 answers DuplicateApplication and leaves the
store unchanged. -/
theorem application_pair_uniqueness_data_layer_witness :
    applyToJob dbPend 10 "j1" stu1 none "a2" =
      (dbPend, .error .DuplicateApplication) :=
  (application_pair_uniqueness_data_layer dbPend).2.2.1 10 "j1" stu1 none "a2"
    job1 (by rfl) (by rfl) (by decide) (by rfl)

/-! ### Bulk-update machinery shared by C6, C10 and the event-shape theorems -/

theorem ownedMatches_cons_pos {a : Application} {rest : List Application}
    {ids : List String} {r : String} (h : a.id ∈ ids ∧ a.recruiter = r) :
    ownedMatches (a :: rest) ids r = a :: ownedMatches rest ids r := by
  simp [ownedMatches, h]

theorem ownedMatches_cons_neg {a : Application} {rest : List Application}
    {ids : List String} {r : String} (h : ¬(a.id ∈ ids ∧ a.recruiter = r)) :
    ownedMatches (a :: rest) ids r = ownedMatches rest ids r := by
  simp [ownedMatches, h]

theorem ownedMatches_sublist (l : List Application) (ids : List String)
    (r : String) : List.Sublist (ownedMatches l ids r) l := by
  induction l with
  | nil => exact List.Sublist.refl _
  | cons a rest ih =>
    by_cases h : a.id ∈ ids ∧ a.recruiter = r
    · rw [ownedMatches_cons_pos h]
      exact List.Sublist.cons₂ a ih
    · rw [ownedMatches_cons_neg h]
      exact List.Sublist.cons a ih

theorem ownedMatches_mem {l : List Application} {ids : List String} {r : String}
    {a : Application} (h : a ∈ ownedMatches l ids r) :
    a ∈ l ∧ a.id ∈ ids ∧ a.recruiter = r := by
  induction l with
  | nil => simp [ownedMatches] at h
  | cons b rest ih =>
    by_cases hb : b.id ∈ ids ∧ b.recruiter = r
    · rw [ownedMatches_cons_pos hb] at h
      rcases List.mem_cons.mp h with h1 | h1
      · subst h1
        exact ⟨List.mem_cons_self _ _, hb.1, hb.2⟩
      · obtain ⟨h2, h3, h4⟩ := ih h1
        exact ⟨List.mem_cons_of_mem _ h2, h3, h4⟩
    · rw [ownedMatches_cons_neg hb] at h
      obtain ⟨h2, h3, h4⟩ := ih h
      exact ⟨List.mem_cons_of_mem _ h2, h3, h4⟩

theorem ownedMatches_length_lt_of_missing (l : List Application)
    (ids : List String) (r : String)
    (hnodup : (l.map Application.id).Nodup) (i : String) (hi : i ∈ ids)
    (hbad : ∀ a ∈ l, ¬(a.id = i ∧ a.recruiter = r)) :
    (ownedMatches l ids r).length < ids.length := by
  have hMnodup : ((ownedMatches l ids r).map Application.id).Nodup :=
    hnodup.sublist ((ownedMatches_sublist l ids r).map Application.id)
  have hsubF : ((ownedMatches l ids r).map Application.id).toFinset ⊆
      ids.toFinset.erase i := by
    intro x hx
    rcases List.mem_map.mp (List.mem_toFinset.mp hx) with ⟨a, ha, rfl⟩
    obtain ⟨hal, haid, har⟩ := ownedMatches_mem ha
    refine Finset.mem_erase.mpr ⟨?_, List.mem_toFinset.mpr haid⟩
    intro hcontra
    exact hbad a hal ⟨hcontra, har⟩
  calc (ownedMatches l ids r).length
      = ((ownedMatches l ids r).map Application.id).length := by
        rw [List.length_map]
    _ = ((ownedMatches l ids r).map Application.id).toFinset.card :=
        (List.toFinset_card_of_nodup hMnodup).symm
    _ ≤ (ids.toFinset.erase i).card := Finset.card_le_card hsubF
    _ < ids.toFinset.card :=
        Finset.card_erase_lt_of_mem (List.mem_toFinset.mpr hi)
    _ ≤ ids.length := List.toFinset_card_le ids

theorem dedup_length_lt_of_not_nodup {ids : List String} (h : ¬ids.Nodup) :
    ids.dedup.length < ids.length := by
  rcases Nat.lt_or_ge ids.dedup.length ids.length with h1 | h1
  · exact h1
  · exfalso
    have hs := ids.dedup_sublist
    have heq : ids.dedup = ids :=
      hs.eq_of_length (Nat.le_antisymm hs.length_le h1)
    exact h (heq ▸ ids.nodup_dedup)

theorem ownedMatches_length_lt_of_dup (l : List Application)
    (ids : List String) (r : String)
    (hnodup : (l.map Application.id).Nodup) (hdup : ¬ids.Nodup) :
    (ownedMatches l ids r).length < ids.length := by
  have hMnodup : ((ownedMatches l ids r).map Application.id).Nodup :=
    hnodup.sublist ((ownedMatches_sublist l ids r).map Application.id)
  have hsubF : ((ownedMatches l ids r).map Application.id).toFinset ⊆
      ids.toFinset := by
    intro x hx
    rcases List.mem_map.mp (List.mem_toFinset.mp hx) with ⟨a, ha, rfl⟩
    exact List.mem_toFinset.mpr (ownedMatches_mem ha).2.1
  calc (ownedMatches l ids r).length
      = ((ownedMatches l ids r).map Application.id).length := by
        rw [List.length_map]
    _ = ((ownedMatches l ids r).map Application.id).toFinset.card :=
        (List.toFinset_card_of_nodup hMnodup).symm
    _ ≤ ids.toFinset.card := Finset.card_le_card hsubF
    _ = ids.dedup.length := List.card_toFinset ids
    _ < ids.length := dedup_length_lt_of_not_nodup hdup

theorem bulk_reduces (db : DB) (now : Nat) (rid : String) (ids : List String)
    (status : AppStatus) (notes : Option String)
    (hne : ids.isEmpty = false)
    (hlen : (ownedMatches db.apps ids rid).length = ids.length) :
    bulkUpdateApplications db now rid ids status notes =
      ({ db with apps := bulkApplyFields db.apps ids now status notes },
       .ok ((ownedMatches db.apps ids rid).map fun a =>
              SocketEvent.applicationUpdatedBulk ("student-" ++ a.student)
                a.id status notes,
            (ownedMatches db.apps ids rid).length)) := by
  unfold bulkUpdateApplications
  rw [if_neg (by simp [hne]), if_neg (by simp [hlen])]

theorem bulkApplyFields_status (apps : List Application) (ids : List String)
    (now : Nat) (status : AppStatus) (notes : Option String) :
    ∀ b ∈ bulkApplyFields apps ids now status notes,
      b.id ∈ ids → b.status = status := by
  intro b hb hid
  unfold bulkApplyFields at hb
  rcases List.mem_map.mp hb with ⟨a, ha, rfl⟩
  by_cases h : a.id ∈ ids
  · simp [h]
  · rw [if_neg h] at hid ⊢
    exact absurd hid h

/-! ### C6 -/

/-- C6: the bulk update is all-or-nothing with respect to ownership. If some
id in the list refers to no application or to one not owned by the caller,
the whole call is rejected with the 400 response and the store is unchanged;
when the call succeeds, every listed id referred to an application owned by
the caller and every stored application whose id is listed now carries the
target status. -/
theorem bulkUpdate_all_or_nothing_ownership (db : DB) (now : Nat)
    (rid : String) (ids : List String) (status : AppStatus)
    (notes : Option String)
    (hnodup : (db.apps.map Application.id).Nodup) :
    ((∃ i ∈ ids, ∀ a ∈ db.apps, ¬(a.id = i ∧ a.recruiter = rid)) →
      bulkUpdateApplications db now rid ids status notes =
        (db, .error .NotAllOwned))
    ∧ (∀ evs cnt,
        (bulkUpdateApplications db now rid ids status notes).2 = .ok (evs, cnt) →
        (∀ i ∈ ids, ∃ a ∈ db.apps, a.id = i ∧ a.recruiter = rid)
        ∧ (bulkUpdateApplications db now rid ids status notes).1.apps =
            bulkApplyFields db.apps ids now status notes
        ∧ ∀ b ∈ (bulkUpdateApplications db now rid ids status notes).1.apps,
            b.id ∈ ids → b.status = status) := by
  constructor
  · rintro ⟨i, hi, hbad⟩
    have hlt :=
      ownedMatches_length_lt_of_missing db.apps ids rid hnodup i hi hbad
    have hne : ids.isEmpty = false := by
      cases ids with
      | nil => simp at hi
      | cons _ _ => rfl
    unfold bulkUpdateApplications
    rw [if_neg (by simp [hne]), if_pos (Nat.ne_of_lt hlt)]
  · intro evs cnt hok
    by_cases hne : ids.isEmpty = true
    · unfold bulkUpdateApplications at hok
      rw [if_pos hne] at hok
      exact Except.noConfusion hok
    · by_cases hlen : (ownedMatches db.apps ids rid).length ≠ ids.length
      · unfold bulkUpdateApplications at hok
        rw [if_neg hne, if_pos hlen] at hok
        exact Except.noConfusion hok
      · have hred := bulk_reduces db now rid ids status notes
          (by simpa using hne) (by simpa using hlen)
        refine ⟨?_, ?_, ?_⟩
        · intro i hi
          by_contra hno
          push_neg at hno
          have hlt := ownedMatches_length_lt_of_missing db.apps ids rid hnodup
            i hi (fun a ha => by
              intro hpair
              exact hno a ha hpair.1 hpair.2)
          exact hlen (Nat.ne_of_lt hlt)
        · rw [hred]
        · rw [hred]
          exact bulkApplyFields_status db.apps ids now status notes

/-- C6 witness: with the store holding only the application a1 owned by r1,
a bulk call listing the unknown id zz is rejected in full. -/
theorem bulkUpdate_all_or_nothing_ownership_witness :
    bulkUpdateApplications dbPend 50 "r1" ["a1", "zz"] .accepted none =
      (dbPend, .error .NotAllOwned) :=
  (bulkUpdate_all_or_nothing_ownership dbPend 50 "r1" ["a1", "zz"] .accepted
    none (by decide)).1 ⟨"zz", by decide, by decide⟩

/-! ### C10 -/

/-- C10: a duplicated id in the request list makes the count check fail even
when every listed id refers to an application owned by the caller, because
find matches distinct documents while the length check compares against the
non-deduplicated list; the call is rejected with the 400 response and the
store is unchanged. -/
theorem bulkUpdate_duplicate_ids_rejected (db : DB) (now : Nat) (rid : String)
    (ids : List String) (status : AppStatus) (notes : Option String)
    (hnodup : (db.apps.map Application.id).Nodup)
    (howned : ∀ i ∈ ids, ∃ a ∈ db.apps, a.id = i ∧ a.recruiter = rid)
    (hdup : ¬ids.Nodup) :
    bulkUpdateApplications db now rid ids status notes =
      (db, .error .NotAllOwned) := by
  have hlt := ownedMatches_length_lt_of_dup db.apps ids rid hnodup hdup
  have hne : ids.isEmpty = false := by
    cases ids with
    | nil => exact absurd List.nodup_nil hdup
    | cons _ _ => rfl
  unfold bulkUpdateApplications
  rw [if_neg (by simp [hne]), if_pos (Nat.ne_of_lt hlt)]

/-- C10 witness: listing the owned application a1 twice makes the bulk call
fail with the partial-deny response although a1 is owned by the caller. -/
theorem bulkUpdate_duplicate_ids_rejected_witness :
    bulkUpdateApplications dbPend 50 "r1" ["a1", "a1"] .accepted none =
      (dbPend, .error .NotAllOwned) :=
  bulkUpdate_duplicate_ids_rejected dbPend 50 "r1" ["a1", "a1"] .accepted none
    (by decide) (by decide) (by decide)

/-! ### Reduction lemmas for the single-update and admin routes -/

theorem updateApplication_reduces (db : DB) (now : Nat) (rid aid : String)
    (status : AppStatus) (notes : Option String) (idate : Option Nat)
    (iloc : Option String) (itype : Option String) (a : Application) (j : Job)
    (hfind : findApp db.apps aid = some a)
    (hj : findJob db.jobs a.job = some j) (hcomp : j.company = rid) :
    updateApplication db now rid aid status notes idate iloc itype =
      ({ db with apps := db.apps.map fun b =>
            if b.id = aid then applyUpdateFields a now status notes idate iloc itype
            else b },
       .ok (.applicationUpdatedFull ("student-" ++ a.student) a.id
         (applyUpdateFields a now status notes idate iloc itype).status
         (applyUpdateFields a now status notes idate iloc itype).recruiterNotes
         (applyUpdateFields a now status notes idate iloc itype).interviewDate
         (applyUpdateFields a now status notes idate iloc itype).interviewLocation
         (applyUpdateFields a now status notes idate iloc itype).interviewType)) := by
  unfold updateApplication
  simp only [hfind, hj]
  rw [if_neg (by simp [hcomp])]

theorem adminUpdate_reduces (db : DB) (aid : String) (status : AppStatus)
    (a : Application) (hfind : findApp db.apps aid = some a) :
    adminUpdateApplicationStatus db aid status =
      ({ db with apps := db.apps.map fun b =>
            if b.id = aid then { a with status := status } else b },
       .ok [SocketEvent.applicationUpdatedAdmin a.student a.id status,
            SocketEvent.applicationUpdatedAdmin a.recruiter a.id status]) := by
  unfold adminUpdateApplicationStatus
  rw [hfind]

/-! ### C4 amended -/

/-- C4 amended: only the student withdraw route enforces the pending-only
rule — an owned non-pending application cannot be withdrawn — while the
recruiter single update succeeds on an owned application from any current
status, overwriting the status with the target, and a successful bulk update
likewise stamps the target status on every listed application with no check
of the current statuses. -/
theorem status_checks_only_on_withdraw_amended (db : DB) (now : Nat)
    (sid sname rid aid : String) (a : Application) (j : Job)
    (status : AppStatus) (notes : Option String) (idate : Option Nat)
    (iloc : Option String) (itype : Option String)
    (hfind : findApp db.apps aid = some a) (hown : a.student = sid)
    (hj : findJob db.jobs a.job = some j) (hcomp : j.company = rid) :
    (a.status ≠ .pending →
      withdrawApplication db sid sname aid = (db, .error .InvalidTransition))
    ∧ (updateApplication db now rid aid status notes idate iloc itype).2 =
        .ok (.applicationUpdatedFull ("student-" ++ a.student) a.id
          (applyUpdateFields a now status notes idate iloc itype).status
          (applyUpdateFields a now status notes idate iloc itype).recruiterNotes
          (applyUpdateFields a now status notes idate iloc itype).interviewDate
          (applyUpdateFields a now status notes idate iloc itype).interviewLocation
          (applyUpdateFields a now status notes idate iloc itype).interviewType)
    ∧ findApp (updateApplication db now rid aid status notes idate iloc
        itype).1.apps aid =
        some (applyUpdateFields a now status notes idate iloc itype)
    ∧ (applyUpdateFields a now status notes idate iloc itype).status = status
    ∧ (∀ ids evs cnt,
        (bulkUpdateApplications db now rid ids status notes).2 = .ok (evs, cnt) →
        ∀ b ∈ (bulkUpdateApplications db now rid ids status notes).1.apps,
          b.id ∈ ids → b.status = status) := by
  refine ⟨?_, ?_, ?_, rfl, ?_⟩
  · intro hp
    unfold withdrawApplication
    rw [hfind]
    show (if a.student ≠ sid then
            ((db, .error .Forbidden) : DB × Except WithdrawError SocketEvent)
          else if a.status ≠ AppStatus.pending then
            (db, .error .InvalidTransition)
          else (applicationSaveExisting db { a with status := .withdrawn },
                .ok (.applicationWithdrawn ("recruiter-" ++ a.recruiter) a.id
                   sname))) = _
    rw [if_neg (by simp [hown]), if_pos (by simp [hp])]
  · rw [updateApplication_reduces db now rid aid status notes idate iloc itype
      a j hfind hj hcomp]
  · rw [updateApplication_reduces db now rid aid status notes idate iloc itype
      a j hfind hj hcomp]
    show findApp (db.apps.map fun b =>
        if b.id = aid then applyUpdateFields a now status notes idate iloc itype
        else b) aid =
      some (applyUpdateFields a now status notes idate iloc itype)
    have hid2 : a.id = aid := findApp_eq_some_id hfind
    rw [findApp_map_replace db.apps aid
      (applyUpdateFields a now status notes idate iloc itype)
      (show (applyUpdateFields a now status notes idate iloc itype).id = aid
        from hid2), hfind]
    rfl
  · intro ids evs cnt hok b hb hbid
    by_cases hne : ids.isEmpty = true
    · unfold bulkUpdateApplications at hok
      rw [if_pos hne] at hok
      exact Except.noConfusion hok
    · by_cases hlen : (ownedMatches db.apps ids rid).length ≠ ids.length
      · unfold bulkUpdateApplications at hok
        rw [if_neg hne, if_pos hlen] at hok
        exact Except.noConfusion hok
      · have hred := bulk_reduces db now rid ids status notes
          (by simpa using hne) (by simpa using hlen)
        rw [hred] at hb
        exact bulkApplyFields_status db.apps ids now status notes b hb hbid

/-- C4 amended witness: the recruiter overwrites the accepted application a1
to rejected through the single-update route. -/
theorem status_checks_only_on_withdraw_amended_witness :
    (updateApplication dbAcc 20 "r1" "a1" .rejected none none none none).2 =
      .ok (.applicationUpdatedFull ("student-" ++ app_acc.student) app_acc.id
        (applyUpdateFields app_acc 20 .rejected none none none none).status
        (applyUpdateFields app_acc 20 .rejected none none none none).recruiterNotes
        (applyUpdateFields app_acc 20 .rejected none none none none).interviewDate
        (applyUpdateFields app_acc 20 .rejected none none none none).interviewLocation
        (applyUpdateFields app_acc 20 .rejected none none none none).interviewType) :=
  (status_checks_only_on_withdraw_amended dbAcc 20 "s1" "Alice" "r1" "a1"
    app_acc job1 .rejected none none none none (by rfl) (by rfl) (by rfl)
    (by rfl)).2.1

/-! ### C9 amended -/

/-- C9 amended: the recruiter single update emits exactly one
application-updated event, addressed to the student channel
`student-{studentId}`, whose payload carries the status, the notes and the
interview fields; a successful bulk update emits one application-updated
event per matched application, each to its `student-` channel, with no
interview fields in the payload; the admin status override emits two
application-updated events addressed to the rooms named by the raw student id
and raw recruiter id (no role prefix), carrying only the id and status. -/
theorem application_updated_event_shapes (db : DB) (now : Nat)
    (rid aid : String) (a : Application) (j : Job) (status : AppStatus)
    (notes : Option String) (idate : Option Nat) (iloc : Option String)
    (itype : Option String)
    (hfind : findApp db.apps aid = some a)
    (hj : findJob db.jobs a.job = some j) (hcomp : j.company = rid) :
    ((updateApplication db now rid aid status notes idate iloc itype).2.map
        fun e => (e.eventName, e.channel, e.hasInterviewFields)) =
      .ok ("application-updated", "student-" ++ a.student, true)
    ∧ (∀ ids evs cnt,
        (bulkUpdateApplications db now rid ids status notes).2 = .ok (evs, cnt) →
        evs = (ownedMatches db.apps ids rid).map (fun b =>
          SocketEvent.applicationUpdatedBulk ("student-" ++ b.student) b.id
            status notes)
        ∧ ∀ e ∈ evs, e.eventName = "application-updated"
            ∧ e.hasInterviewFields = false)
    ∧ (adminUpdateApplicationStatus db aid status).2 =
        .ok [SocketEvent.applicationUpdatedAdmin a.student a.id status,
             SocketEvent.applicationUpdatedAdmin a.recruiter a.id status] := by
  refine ⟨?_, ?_, ?_⟩
  · rw [updateApplication_reduces db now rid aid status notes idate iloc itype
      a j hfind hj hcomp]
    rfl
  · intro ids evs cnt hok
    by_cases hne : ids.isEmpty = true
    · unfold bulkUpdateApplications at hok
      rw [if_pos hne] at hok
      exact Except.noConfusion hok
    · by_cases hlen : (ownedMatches db.apps ids rid).length ≠ ids.length
      · unfold bulkUpdateApplications at hok
        rw [if_neg hne, if_pos hlen] at hok
        exact Except.noConfusion hok
      · have hred := bulk_reduces db now rid ids status notes
          (by simpa using hne) (by simpa using hlen)
        rw [hred] at hok
        have hpair := Except.ok.inj hok
        have hevs : evs = (ownedMatches db.apps ids rid).map (fun b =>
            SocketEvent.applicationUpdatedBulk ("student-" ++ b.student) b.id
              status notes) :=
          (congrArg Prod.fst hpair).symm
        refine ⟨hevs, ?_⟩
        intro e he
        rw [hevs] at he
        rcases List.mem_map.mp he with ⟨b, hb, rfl⟩
        exact ⟨rfl, rfl⟩
  · rw [adminUpdate_reduces db aid status a hfind]

/-- C9 amended witness: the admin override of the pending application a1
emits the two raw-id events of the theorem on the concrete store. -/
theorem application_updated_event_shapes_witness :
    (adminUpdateApplicationStatus dbPend "a1" .rejected).2 =
      .ok [SocketEvent.applicationUpdatedAdmin app_pend.student app_pend.id
             .rejected,
           SocketEvent.applicationUpdatedAdmin app_pend.recruiter app_pend.id
             .rejected] :=
  (application_updated_event_shapes dbPend 20 "r1" "a1" app_pend job1
    .rejected none none none none (by rfl) (by rfl) (by rfl)).2.2
